import Mathlib

/-!
Verification of the angular-dimension geometry resolver described by the
repository's design specification, against the example-driving script
`examples/render/dimension_angular.py`.

The script itself only builds geometric inputs and hands them to the
library entry points `add_angular_dim_cra`, `add_angular_dim_3p` and
`add_angular_dim_2l`; the resolver computation behind those entry points
is not part of the provided sources, so it is modelled here from the
specification (every such definition carries a doc comment starting with
`Modelled from the spec:`).  The input-building arithmetic that *is* in
the provided script (`add_angle_dim`, the defpoint construction of
`angular_3p_default`) is embedded directly from that source.

Angles are degrees over ℝ; points are exact 2D real vectors (the script's
`Vec3` with `z = 0`; the spec declares z ignored for angle math).
-/

noncomputable section

open Real

/-- 2D point/vector with the operations the resolver needs
(`ezdxf.math.Vec3` restricted to the xy-plane, per spec §3). -/
@[ext]
structure Vec2 where
  x : ℝ
  y : ℝ
  deriving DecidableEq

namespace Vec2

instance : Add Vec2 := ⟨fun a b => ⟨a.x + b.x, a.y + b.y⟩⟩

instance : Sub Vec2 := ⟨fun a b => ⟨a.x - b.x, a.y - b.y⟩⟩

instance : SMul ℝ Vec2 := ⟨fun c v => ⟨c * v.x, c * v.y⟩⟩

instance : Zero Vec2 := ⟨⟨0, 0⟩⟩

/-- Linear interpolation `v + (w - v) * factor` (`Vec3.lerp`; the script
calls it with the default factor `0.5`). -/
def lerp (v w : Vec2) (factor : ℝ) : Vec2 := v + factor • (w - v)

/-- Euclidean distance between two points (`Vec3.distance`). -/
def distance (a b : Vec2) : ℝ := Real.sqrt ((b.x - a.x) ^ 2 + (b.y - a.y) ^ 2)

/-- Polar angle of a vector in degrees, in `(-180, 180]` (the
`angle_of`/`angle_deg` operation of spec §3, via the complex argument). -/
def angle_deg (v : Vec2) : ℝ := Complex.arg (Complex.I * v.y + v.x) * 180 / Real.pi

end Vec2

/-- Unit direction vector of a degree angle
(`direction_at` of spec §4.1, `Vec3.from_deg_angle(angle)` in the script). -/
def direction_at (angle : ℝ) : Vec2 :=
  ⟨Real.cos (angle * Real.pi / 180), Real.sin (angle * Real.pi / 180)⟩

/-- Polar construction `Vec3.from_deg_angle(angle, length)`. -/
def from_deg_angle (angle length : ℝ) : Vec2 := length • direction_at angle

/-- The counter-clockwise sweep, in `[0, 360)`, of the arc from degree
angle `s` to degree angle `e` (spec §3: "the swept measurement is always
the counter-clockwise arc from start to end"). -/
def sweepDeg (s e : ℝ) : ℝ := toIcoMod (by norm_num : (0:ℝ) < 360) 0 (e - s)

/-- A degree value normalized into `[0, 360)`. -/
def normDeg (a : ℝ) : ℝ := toIcoMod (by norm_num : (0:ℝ) < 360) 0 a

/-- Whether `θ` lies on the counter-clockwise arc swept from `s` to `e`
(all in degrees, compared modulo 360). -/
def onCcwArcDeg (s e θ : ℝ) : Prop := normDeg (θ - s) ≤ sweepDeg s e

/-- Modelled from the spec: `lerp_angle` "interpolates along the
counter-clockwise arc from start to end (the midpoint of the swept arc,
not the shorter geometric angle between the two directions)" (§4.1). -/
def lerp_angle (s e : ℝ) : ℝ := s + sweepDeg s e / 2

/-- Error taxonomy of spec §7. -/
inductive GeoError where
  | InvalidGeometry
  | DegenerateGeometry
  | ParallelLines
  deriving DecidableEq

/-- Canonical angular-dimension description (spec §3). -/
structure AngularDimensionSpec where
  center : Vec2
  radius : ℝ
  start_angle : ℝ
  end_angle : ℝ
  distance : ℝ
  dimension_line_point : Vec2
  text_rotation : Option ℝ

/-- Modelled from the spec: `resolve_from_center_radius_angles` (§4.1) —
the resolver behind the library entry point `add_angular_dim_cra`, which
is not part of the provided sources.  `radius` must be `> 0` (error
`InvalidGeometry` otherwise); the output fields equal the inputs
unchanged and `dimension_line_point` is
`center + direction_at (lerp_angle start_angle end_angle) * (radius + distance)`. -/
def resolve_from_center_radius_angles (center : Vec2)
    (radius start_angle end_angle distance : ℝ) (text_rotation : Option ℝ) :
    Except GeoError AngularDimensionSpec :=
  if 0 < radius then
    .ok ⟨center, radius, start_angle, end_angle, distance,
      center + (radius + distance) • direction_at (lerp_angle start_angle end_angle),
      text_rotation⟩
  else .error .InvalidGeometry

/-- Modelled from the spec: `resolve_from_three_points` (§4.2) — the
resolver behind the library entry point `add_angular_dim_3p`, which is
not part of the provided sources.  Requires `center ≠ boundary_point_1`,
`center ≠ boundary_point_2` and `dimension_line_point ≠ center` (error
`DegenerateGeometry` otherwise); `radius = distance(center,
boundary_point_1)` (error `DegenerateGeometry` when it is 0), the angles
are the polar angles of the boundary points about the center, `distance
= distance(center, dimension_line_point) - radius`, and the canonical
spec is produced by `resolve_from_center_radius_angles`. -/
def resolve_from_three_points (dimension_line_point center : Vec2)
    (boundary_point_1 boundary_point_2 : Vec2) (text_rotation : Option ℝ) :
    Except GeoError AngularDimensionSpec :=
  if center = boundary_point_1 ∨ center = boundary_point_2 then .error .DegenerateGeometry
  else if dimension_line_point = center then .error .DegenerateGeometry
  else if Vec2.distance center boundary_point_1 = 0 then .error .DegenerateGeometry
  else
    resolve_from_center_radius_angles center (Vec2.distance center boundary_point_1)
      (Vec2.angle_deg (boundary_point_1 - center))
      (Vec2.angle_deg (boundary_point_2 - center))
      (Vec2.distance center dimension_line_point - Vec2.distance center boundary_point_1)
      text_rotation

/-- Cross product of the direction vectors of two segments; the two
infinite lines are parallel (or coincident, or degenerate) exactly when
it is 0 (spec §4.3). -/
def lineCross (line1 line2 : Vec2 × Vec2) : ℝ :=
  (line1.2.x - line1.1.x) * (line2.2.y - line2.1.y) -
    (line1.2.y - line1.1.y) * (line2.2.x - line2.1.x)

/-- Parameter `t` such that `line1.1 + t • (line1.2 - line1.1)` is the
intersection point of the two infinite lines (defined when
`lineCross line1 line2 ≠ 0`). -/
def intersectParam (line1 line2 : Vec2 × Vec2) : ℝ :=
  ((line2.1.x - line1.1.x) * (line2.2.y - line2.1.y) -
    (line2.1.y - line1.1.y) * (line2.2.x - line2.1.x)) / lineCross line1 line2

/-- Intersection point of the two infinite lines through the segments. -/
def lineIntersection (line1 line2 : Vec2 × Vec2) : Vec2 :=
  line1.1 + intersectParam line1 line2 • (line1.2 - line1.1)

/-- Whichever endpoint of the segment is farther from `center` (the
line's "outward" direction, spec §4.3). -/
def outerPoint (center : Vec2) (line : Vec2 × Vec2) : Vec2 :=
  if Vec2.distance center line.2 < Vec2.distance center line.1 then line.1 else line.2

/-- Modelled from the spec: `resolve_from_two_lines` (§4.3) — the
resolver behind the library entry point `add_angular_dim_2l`, which is
not part of the provided sources.  The center is the intersection of
the two infinite lines (error `ParallelLines` when the direction cross
product is 0); the angles point from the center toward the farther
endpoint of each segment; `radius`/`distance` are derived from the
radial distance of `dimension_line_point` to the center analogously to
the three-point case. -/
def resolve_from_two_lines (dimension_line_point : Vec2) (line1 line2 : Vec2 × Vec2) :
    Except GeoError AngularDimensionSpec :=
  if lineCross line1 line2 = 0 then .error .ParallelLines
  else
    resolve_from_center_radius_angles (lineIntersection line1 line2)
      (Vec2.distance (lineIntersection line1 line2)
        (outerPoint (lineIntersection line1 line2) line1))
      (Vec2.angle_deg (outerPoint (lineIntersection line1 line2) line1 -
        lineIntersection line1 line2))
      (Vec2.angle_deg (outerPoint (lineIntersection line1 line2) line2 -
        lineIntersection line1 line2))
      (Vec2.distance (lineIntersection line1 line2) dimension_line_point -
        Vec2.distance (lineIntersection line1 line2)
          (outerPoint (lineIntersection line1 line2) line1))
      none

/-- From the script's `add_angle_dim`: builds the dimension about
`angle` with half-width `delta` by calling the center/radius/angles
resolver with `start_angle = angle - delta` and
`end_angle = angle + delta`. -/
def add_angle_dim (center : Vec2) (angle delta radius distance : ℝ)
    (text_rotation : Option ℝ) : Except GeoError AngularDimensionSpec :=
  resolve_from_center_radius_angles center radius (angle - delta) (angle + delta)
    distance text_rotation

/-- From the script's `angular_3p_default` loop body: the three defpoints
`(p1, p2, base)` computed from the parameters of the "cra" example:
`dir1 = Vec3.from_deg_angle(start_angle)`, `dir2 =
Vec3.from_deg_angle(end_angle)`, `p1 = center + dir1 * radius`,
`p2 = center + dir2 * radius`, `base = center + dir1.lerp(dir2) *
(radius + distance)` (with `lerp`'s default factor 0.5). -/
def angular_3p_defpoints (center : Vec2) (start_angle end_angle radius distance : ℝ) :
    Vec2 × Vec2 × Vec2 :=
  let dir1 := direction_at start_angle
  let dir2 := direction_at end_angle
  (center + radius • dir1, center + radius • dir2,
    center + (radius + distance) • Vec2.lerp dir1 dir2 (1 / 2))

@[simp]
theorem Vec2.add_x (a b : Vec2) : (a + b).x = a.x + b.x := rfl

@[simp]
theorem Vec2.add_y (a b : Vec2) : (a + b).y = a.y + b.y := rfl

@[simp]
theorem Vec2.sub_x (a b : Vec2) : (a - b).x = a.x - b.x := rfl

@[simp]
theorem Vec2.sub_y (a b : Vec2) : (a - b).y = a.y - b.y := rfl

@[simp]
theorem Vec2.smul_x (c : ℝ) (v : Vec2) : (c • v).x = c * v.x := rfl

@[simp]
theorem Vec2.smul_y (c : ℝ) (v : Vec2) : (c • v).y = c * v.y := rfl

theorem Vec2.distance_nonneg (a b : Vec2) : 0 ≤ Vec2.distance a b := Real.sqrt_nonneg _

theorem Vec2.distance_eq_zero_iff (a b : Vec2) : Vec2.distance a b = 0 ↔ a = b := by
  unfold Vec2.distance
  rw [Real.sqrt_eq_zero (by positivity)]
  constructor
  · intro h
    have hx : b.x - a.x = 0 := by nlinarith [sq_nonneg (b.x - a.x), sq_nonneg (b.y - a.y)]
    have hy : b.y - a.y = 0 := by nlinarith [sq_nonneg (b.x - a.x), sq_nonneg (b.y - a.y)]
    ext <;> linarith
  · intro h; subst h; ring

theorem h360 : (0:ℝ) < 360 := by norm_num

theorem normDeg_eq (a c : ℝ) (z : ℤ) (h : a = c + z * 360) (h0 : 0 ≤ c) (h1 : c < 360) :
    normDeg a = c := by
  unfold normDeg
  rw [toIcoMod_eq_iff]
  exact ⟨Set.mem_Ico.mpr ⟨h0, by linarith⟩, z, by rw [zsmul_eq_mul]; linarith⟩

theorem normDeg_eq_self (a : ℝ) (h0 : 0 ≤ a) (h1 : a < 360) : normDeg a = a :=
  normDeg_eq a a 0 (by push_cast; ring) h0 h1

theorem normDeg_mem_Ico (a : ℝ) : normDeg a ∈ Set.Ico (0:ℝ) 360 := by
  simpa using toIcoMod_mem_Ico' h360 a

theorem sweepDeg_def (s e : ℝ) : sweepDeg s e = normDeg (e - s) := rfl

theorem sweepDeg_mem_Ico (s e : ℝ) : sweepDeg s e ∈ Set.Ico (0:ℝ) 360 := normDeg_mem_Ico _

theorem sub_normDeg_eq_zsmul (a : ℝ) : ∃ z : ℤ, a = normDeg a + z * 360 := by
  refine ⟨toIcoDiv h360 0 a, ?_⟩
  have h := toIcoMod_add_toIcoDiv_zsmul h360 0 a
  rw [zsmul_eq_mul] at h
  unfold normDeg
  linarith

theorem sweepDeg_lerp_angle_left (s e : ℝ) :
    sweepDeg s (lerp_angle s e) = sweepDeg s e / 2 := by
  have hb := sweepDeg_mem_Ico s e
  rw [Set.mem_Ico] at hb
  rw [sweepDeg_def, lerp_angle]
  rw [show s + sweepDeg s e / 2 - s = sweepDeg s e / 2 from by ring]
  exact normDeg_eq_self _ (by linarith) (by linarith)

theorem sweepDeg_lerp_angle_right (s e : ℝ) :
    sweepDeg (lerp_angle s e) e = sweepDeg s e / 2 := by
  have hb := sweepDeg_mem_Ico s e
  rw [Set.mem_Ico] at hb
  obtain ⟨z, hz⟩ := sub_normDeg_eq_zsmul (e - s)
  rw [sweepDeg_def, lerp_angle]
  have h1 : e - (s + sweepDeg s e / 2) = sweepDeg s e / 2 + z * 360 := by
    rw [sweepDeg_def]; linarith
  exact normDeg_eq _ _ z h1 (by linarith) (by linarith)

theorem Vec2.distance_add_smul_direction (c : Vec2) (k θ : ℝ) :
    Vec2.distance c (c + k • direction_at θ) = |k| := by
  have h := Real.sin_sq_add_cos_sq (θ * Real.pi / 180)
  unfold Vec2.distance direction_at
  simp only [Vec2.add_x, Vec2.add_y, Vec2.smul_x, Vec2.smul_y]
  rw [show (c.x + k * Real.cos (θ * Real.pi / 180) - c.x) ^ 2 +
        (c.y + k * Real.sin (θ * Real.pi / 180) - c.y) ^ 2 =
      k ^ 2 * (Real.sin (θ * Real.pi / 180) ^ 2 + Real.cos (θ * Real.pi / 180) ^ 2) from by
    ring]
  rw [h, mul_one, Real.sqrt_sq_eq_abs]

theorem Vec2.angle_deg_smul (v : Vec2) (k : ℝ) (hk : 0 < k) :
    Vec2.angle_deg (k • v) = Vec2.angle_deg v := by
  unfold Vec2.angle_deg
  have h : (Complex.I * ((k • v).y : ℝ) + ((k • v).x : ℝ)) =
      (k : ℂ) * (Complex.I * (v.y : ℝ) + (v.x : ℝ)) := by
    simp only [Vec2.smul_x, Vec2.smul_y]
    push_cast
    ring
  rw [h, Complex.arg_real_mul _ hk]

theorem direction_at_90 : direction_at 90 = ⟨0, 1⟩ := by
  unfold direction_at
  rw [show (90:ℝ) * Real.pi / 180 = Real.pi / 2 from by ring,
    Real.cos_pi_div_two, Real.sin_pi_div_two]

theorem direction_at_450 : direction_at 450 = ⟨0, 1⟩ := by
  unfold direction_at
  rw [show (450:ℝ) * Real.pi / 180 = Real.pi / 2 + 2 * Real.pi from by ring,
    Real.cos_add_two_pi, Real.sin_add_two_pi, Real.cos_pi_div_two, Real.sin_pi_div_two]

theorem direction_at_45 : direction_at 45 = ⟨Real.sqrt 2 / 2, Real.sqrt 2 / 2⟩ := by
  unfold direction_at
  rw [show (45:ℝ) * Real.pi / 180 = Real.pi / 4 from by ring,
    Real.cos_pi_div_four, Real.sin_pi_div_four]

theorem angle_deg_unit_y : Vec2.angle_deg ⟨0, 1⟩ = 90 := by
  unfold Vec2.angle_deg
  rw [show (Complex.I * (((⟨0,1⟩ : Vec2).y : ℝ) : ℂ) + (((⟨0,1⟩ : Vec2).x : ℝ) : ℂ))
      = Complex.I from by push_cast; ring]
  rw [Complex.arg_I]
  field_simp
  ring

theorem angle_deg_neg_unit_y : Vec2.angle_deg ⟨0, -1⟩ = -90 := by
  unfold Vec2.angle_deg
  rw [show (Complex.I * (((⟨0,-1⟩ : Vec2).y : ℝ) : ℂ) + (((⟨0,-1⟩ : Vec2).x : ℝ) : ℂ))
      = -Complex.I from by push_cast; ring]
  rw [Complex.arg_neg_I]
  field_simp
  ring

theorem angle_deg_unit_x : Vec2.angle_deg ⟨1, 0⟩ = 0 := by
  unfold Vec2.angle_deg
  rw [show (Complex.I * (((⟨1,0⟩ : Vec2).y : ℝ) : ℂ) + (((⟨1,0⟩ : Vec2).x : ℝ) : ℂ))
      = 1 from by push_cast; ring]
  rw [Complex.arg_one]
  ring

theorem resolve_cra_pos (c : Vec2) (r s e d : ℝ) (tr : Option ℝ) (hr : 0 < r) :
    resolve_from_center_radius_angles c r s e d tr =
      .ok ⟨c, r, s, e, d, c + (r + d) • direction_at (lerp_angle s e), tr⟩ := by
  unfold resolve_from_center_radius_angles
  rw [if_pos hr]

theorem resolve_cra_nonpos (c : Vec2) (r s e d : ℝ) (tr : Option ℝ) (hr : ¬ 0 < r) :
    resolve_from_center_radius_angles c r s e d tr = .error .InvalidGeometry := by
  unfold resolve_from_center_radius_angles
  rw [if_neg hr]

theorem lerp_angle_60_120 : lerp_angle (60:ℝ) 120 = 90 := by
  unfold lerp_angle
  rw [sweepDeg_def, show (120:ℝ) - 60 = 60 from by norm_num,
    normDeg_eq_self 60 (by norm_num) (by norm_num)]
  norm_num

theorem lerp_angle_300_240 : lerp_angle (300:ℝ) 240 = 450 := by
  unfold lerp_angle
  rw [sweepDeg_def, normDeg_eq (240 - 300) 300 (-1) (by norm_num) (by norm_num) (by norm_num)]
  norm_num

theorem lerp_angle_0_90 : lerp_angle (0:ℝ) 90 = 45 := by
  unfold lerp_angle
  rw [sweepDeg_def, show (90:ℝ) - 0 = 90 from by norm_num,
    normDeg_eq_self 90 (by norm_num) (by norm_num)]
  norm_num

/-- C2: `resolve_from_center_radius_angles` with center `(0,0)`, radius 5,
start angle 60, end angle 120 and distance 2 returns a spec whose
`dimension_line_point` is exactly `(0, 7)` — the point at the mid-arc
angle 90° from the center with magnitude `radius + distance = 7` —
and all other fields equal the inputs. -/
theorem claim_C2_concrete_scenario :
    resolve_from_center_radius_angles ⟨0, 0⟩ 5 60 120 2 none =
      .ok ⟨⟨0, 0⟩, 5, 60, 120, 2, ⟨0, 7⟩, none⟩ := by
  rw [resolve_cra_pos ⟨0, 0⟩ 5 60 120 2 none (by norm_num), lerp_angle_60_120,
    direction_at_90]
  simp only [Except.ok.injEq, AngularDimensionSpec.mk.injEq, Vec2.ext_iff]
  norm_num

/-- C3: for every center, positive radius, distance and finite start/end
angles (no matter their order or range), the spec returned by
`resolve_from_center_radius_angles` carries `center`, `radius`,
`start_angle`, `end_angle` and `distance` exactly equal to the inputs,
with no normalization or reordering. -/
theorem claim_C3_identity_no_normalization (c : Vec2) (r s e d : ℝ) (tr : Option ℝ)
    (hr : 0 < r) :
    ∃ spec, resolve_from_center_radius_angles c r s e d tr = .ok spec ∧
      spec.center = c ∧ spec.radius = r ∧ spec.start_angle = s ∧
      spec.end_angle = e ∧ spec.distance = d :=
  ⟨_, resolve_cra_pos c r s e d tr hr, rfl, rfl, rfl, rfl, rfl⟩

theorem claim_C3_witness :
    (0:ℝ) < 5 ∧
    ∃ spec, resolve_from_center_radius_angles ⟨0, 0⟩ 5 300 (-240) 2 none = .ok spec ∧
      spec.center = ⟨0, 0⟩ ∧ spec.radius = 5 ∧ spec.start_angle = 300 ∧
      spec.end_angle = -240 ∧ spec.distance = 2 :=
  ⟨by norm_num, claim_C3_identity_no_normalization ⟨0, 0⟩ 5 300 (-240) 2 none (by norm_num)⟩

/-- C5: `resolve_from_center_radius_angles` fails with `InvalidGeometry`
exactly when the radius is not greater than 0; for every positive radius
any finite angle values are accepted without error and stored without
normalization. -/
theorem claim_C5_invalid_geometry_iff (c : Vec2) (r s e d : ℝ) (tr : Option ℝ) :
    (resolve_from_center_radius_angles c r s e d tr = .error .InvalidGeometry ↔ r ≤ 0) ∧
    (0 < r → ∃ spec, resolve_from_center_radius_angles c r s e d tr = .ok spec ∧
      spec.start_angle = s ∧ spec.end_angle = e) := by
  constructor
  · constructor
    · intro h
      by_contra hr
      rw [resolve_cra_pos c r s e d tr (not_le.mp hr)] at h
      exact Except.noConfusion h
    · intro h
      exact resolve_cra_nonpos c r s e d tr (not_lt.mpr h)
  · intro hr
    exact ⟨_, resolve_cra_pos c r s e d tr hr, rfl, rfl⟩

theorem claim_C5_witness :
    (resolve_from_center_radius_angles ⟨0, 0⟩ (-1) 60 120 2 none =
      .error .InvalidGeometry) ∧
    ((0:ℝ) < 5 ∧
      ∃ spec, resolve_from_center_radius_angles ⟨0, 0⟩ 5 (-720) 10000 2 none = .ok spec ∧
        spec.start_angle = -720 ∧ spec.end_angle = 10000) :=
  ⟨(claim_C5_invalid_geometry_iff ⟨0, 0⟩ (-1) 60 120 2 none).1.mpr (by norm_num),
   by norm_num,
   (claim_C5_invalid_geometry_iff ⟨0, 0⟩ 5 (-720) 10000 2 none).2 (by norm_num)⟩

/-- C9: for every finite `angle` and every `delta` with `0 < delta < 180`,
the dimension built by the script's `add_angle_dim` has
`start_angle = angle - delta` and `end_angle = angle + delta`, the
counter-clockwise sweep from start to end is exactly `2 * delta`, and the
angular midpoint of the measured arc is exactly `angle`. -/
theorem claim_C9_symmetric_about_angle (c : Vec2) (angle delta radius dist : ℝ)
    (tr : Option ℝ) (h0 : 0 < delta) (h1 : delta < 180) :
    (∀ spec, add_angle_dim c angle delta radius dist tr = .ok spec →
      spec.start_angle = angle - delta ∧ spec.end_angle = angle + delta) ∧
    sweepDeg (angle - delta) (angle + delta) = 2 * delta ∧
    lerp_angle (angle - delta) (angle + delta) = angle := by
  have hsweep : sweepDeg (angle - delta) (angle + delta) = 2 * delta := by
    rw [sweepDeg_def, show angle + delta - (angle - delta) = 2 * delta from by ring]
    exact normDeg_eq_self _ (by linarith) (by linarith)
  refine ⟨?_, hsweep, ?_⟩
  · intro spec hspec
    unfold add_angle_dim resolve_from_center_radius_angles at hspec
    by_cases hradius : 0 < radius
    · rw [if_pos hradius] at hspec
      simp only [Except.ok.injEq] at hspec
      subst hspec
      exact ⟨rfl, rfl⟩
    · rw [if_neg hradius] at hspec
      exact Except.noConfusion hspec
  · unfold lerp_angle
    rw [hsweep]
    ring

theorem claim_C9_witness :
    (0:ℝ) < 30 ∧ (30:ℝ) < 180 ∧
    ((∀ spec, add_angle_dim ⟨0, 0⟩ 90 30 3 1 none = .ok spec →
      spec.start_angle = 90 - 30 ∧ spec.end_angle = 90 + 30) ∧
    sweepDeg (90 - 30) (90 + 30) = 2 * 30 ∧
    lerp_angle (90 - 30) (90 + 30) = 90) :=
  ⟨by norm_num, by norm_num,
   claim_C9_symmetric_about_angle ⟨0, 0⟩ 90 30 3 1 none (by norm_num) (by norm_num)⟩

/-- C10: the boundary points `p1`, `p2` built by `angular_3p_default`
from the cra-example parameters both lie on the circle of the given
radius about the center, so the two candidate derivations of the radius
in `resolve_from_three_points` agree on every input this script
produces. -/
theorem claim_C10_defpoints_on_circle (c : Vec2) (s e r d : ℝ) (hr : 0 ≤ r) :
    Vec2.distance c (angular_3p_defpoints c s e r d).1 = r ∧
    Vec2.distance c (angular_3p_defpoints c s e r d).2.1 = r ∧
    Vec2.distance c (angular_3p_defpoints c s e r d).1 =
      Vec2.distance c (angular_3p_defpoints c s e r d).2.1 := by
  have hp1 : Vec2.distance c (angular_3p_defpoints c s e r d).1 = r := by
    show Vec2.distance c (c + r • direction_at s) = r
    rw [Vec2.distance_add_smul_direction, abs_of_nonneg hr]
  have hp2 : Vec2.distance c (angular_3p_defpoints c s e r d).2.1 = r := by
    show Vec2.distance c (c + r • direction_at e) = r
    rw [Vec2.distance_add_smul_direction, abs_of_nonneg hr]
  exact ⟨hp1, hp2, hp1.trans hp2.symm⟩

theorem claim_C10_witness :
    (0:ℝ) ≤ 5 ∧
    (Vec2.distance ⟨0, 0⟩ (angular_3p_defpoints ⟨0, 0⟩ 60 120 5 2).1 = 5 ∧
     Vec2.distance ⟨0, 0⟩ (angular_3p_defpoints ⟨0, 0⟩ 60 120 5 2).2.1 = 5 ∧
     Vec2.distance ⟨0, 0⟩ (angular_3p_defpoints ⟨0, 0⟩ 60 120 5 2).1 =
       Vec2.distance ⟨0, 0⟩ (angular_3p_defpoints ⟨0, 0⟩ 60 120 5 2).2.1) :=
  ⟨by norm_num, claim_C10_defpoints_on_circle ⟨0, 0⟩ 60 120 5 2 (by norm_num)⟩

/-- C6: `resolve_from_three_points` fails with `DegenerateGeometry`
whenever the center coincides with either boundary point or the derived
radius is 0; in particular `resolve_from_three_points p center center q`
fails with `DegenerateGeometry` for every `p`, `center`, `q`. -/
theorem claim_C6_degenerate_three_points :
    (∀ (dlp c p1 p2 : Vec2) (tr : Option ℝ),
      c = p1 ∨ c = p2 ∨ Vec2.distance c p1 = 0 →
      resolve_from_three_points dlp c p1 p2 tr = .error .DegenerateGeometry) ∧
    (∀ (p c q : Vec2) (tr : Option ℝ),
      resolve_from_three_points p c c q tr = .error .DegenerateGeometry) := by
  have main : ∀ (dlp c p1 p2 : Vec2) (tr : Option ℝ),
      c = p1 ∨ c = p2 ∨ Vec2.distance c p1 = 0 →
      resolve_from_three_points dlp c p1 p2 tr = .error .DegenerateGeometry := by
    intro dlp c p1 p2 tr h
    have hcoincide : c = p1 ∨ c = p2 := by
      rcases h with h | h | h
      · exact Or.inl h
      · exact Or.inr h
      · exact Or.inl ((Vec2.distance_eq_zero_iff c p1).mp h)
    unfold resolve_from_three_points
    rw [if_pos hcoincide]
  exact ⟨main, fun p c q tr => main p c c q tr (Or.inl rfl)⟩

theorem claim_C6_witness :
    ((⟨0, 0⟩ : Vec2) = ⟨0, 0⟩ ∨ (⟨0, 0⟩ : Vec2) = ⟨1, 1⟩ ∨
      Vec2.distance ⟨0, 0⟩ ⟨0, 0⟩ = 0) ∧
    resolve_from_three_points ⟨2, 2⟩ ⟨0, 0⟩ ⟨0, 0⟩ ⟨1, 1⟩ none =
      .error .DegenerateGeometry :=
  ⟨Or.inl rfl,
   claim_C6_degenerate_three_points.1 ⟨2, 2⟩ ⟨0, 0⟩ ⟨0, 0⟩ ⟨1, 1⟩ none (Or.inl rfl)⟩

theorem lineCross_ne_zero_distinct (l1 l2 : Vec2 × Vec2) (h : lineCross l1 l2 ≠ 0) :
    l1.1 ≠ l1.2 ∧ l2.1 ≠ l2.2 := by
  constructor
  · intro he
    apply h
    unfold lineCross
    rw [he]
    ring
  · intro he
    apply h
    unfold lineCross
    rw [he]
    ring

theorem outerPoint_cases (c : Vec2) (l : Vec2 × Vec2) :
    (outerPoint c l = l.1 ∨ outerPoint c l = l.2) ∧
    Vec2.distance c (outerPoint c l) =
      max (Vec2.distance c l.1) (Vec2.distance c l.2) := by
  unfold outerPoint
  by_cases hlt : Vec2.distance c l.2 < Vec2.distance c l.1
  · rw [if_pos hlt]
    exact ⟨Or.inl rfl, (max_eq_left hlt.le).symm⟩
  · rw [if_neg hlt]
    push_neg at hlt
    exact ⟨Or.inr rfl, (max_eq_right hlt).symm⟩

theorem outerPoint_dist_pos (c : Vec2) (l : Vec2 × Vec2) (hne : l.1 ≠ l.2) :
    0 < Vec2.distance c (outerPoint c l) := by
  rcases lt_or_eq_of_le (Vec2.distance_nonneg c (outerPoint c l)) with h | h
  · exact h
  · exfalso
    have hmax := (outerPoint_cases c l).2
    rw [← h] at hmax
    have h1 : Vec2.distance c l.1 = 0 :=
      le_antisymm (le_of_max_le_left hmax.ge) (Vec2.distance_nonneg c l.1)
    have h2 : Vec2.distance c l.2 = 0 :=
      le_antisymm (le_of_max_le_right hmax.ge) (Vec2.distance_nonneg c l.2)
    exact hne (((Vec2.distance_eq_zero_iff c l.1).mp h1).symm.trans
      ((Vec2.distance_eq_zero_iff c l.2).mp h2))

theorem lineIntersection_mem_line2 (l1 l2 : Vec2 × Vec2) (h : lineCross l1 l2 ≠ 0) :
    ∃ t : ℝ, lineIntersection l1 l2 = l2.1 + t • (l2.2 - l2.1) := by
  refine ⟨((l2.1.x - l1.1.x) * (l1.2.y - l1.1.y) -
    (l2.1.y - l1.1.y) * (l1.2.x - l1.1.x)) / lineCross l1 l2, ?_⟩
  unfold lineIntersection intersectParam
  ext
  · simp only [Vec2.add_x, Vec2.smul_x, Vec2.sub_x]
    field_simp
    unfold lineCross
    ring
  · simp only [Vec2.add_y, Vec2.smul_y, Vec2.sub_y]
    field_simp
    unfold lineCross
    ring

/-- C7: `resolve_from_two_lines` fails with `ParallelLines` exactly when
the direction cross product of the two segments is 0 (parallel,
coincident or degenerate lines); otherwise it succeeds and the computed
center lies on both infinite lines.  In particular the horizontal lines
`((0,0),(1,0))` and `((0,1),(1,1))` fail with `ParallelLines` for every
dimension line point. -/
theorem claim_C7_parallel_lines :
    (∀ (dlp : Vec2) (l1 l2 : Vec2 × Vec2), lineCross l1 l2 = 0 →
      resolve_from_two_lines dlp l1 l2 = .error .ParallelLines) ∧
    (∀ (dlp : Vec2) (l1 l2 : Vec2 × Vec2), lineCross l1 l2 ≠ 0 →
      ∃ spec, resolve_from_two_lines dlp l1 l2 = .ok spec ∧
        (∃ t : ℝ, spec.center = l1.1 + t • (l1.2 - l1.1)) ∧
        (∃ t : ℝ, spec.center = l2.1 + t • (l2.2 - l2.1))) ∧
    (∀ p : Vec2, resolve_from_two_lines p (⟨0, 0⟩, ⟨1, 0⟩) (⟨0, 1⟩, ⟨1, 1⟩) =
      .error .ParallelLines) := by
  have part1 : ∀ (dlp : Vec2) (l1 l2 : Vec2 × Vec2), lineCross l1 l2 = 0 →
      resolve_from_two_lines dlp l1 l2 = .error .ParallelLines := by
    intro dlp l1 l2 h
    unfold resolve_from_two_lines
    rw [if_pos h]
  refine ⟨part1, ?_, ?_⟩
  · intro dlp l1 l2 h
    unfold resolve_from_two_lines
    rw [if_neg h, resolve_cra_pos _ _ _ _ _ _
      (outerPoint_dist_pos _ _ (lineCross_ne_zero_distinct l1 l2 h).1)]
    exact ⟨_, rfl, ⟨intersectParam l1 l2, rfl⟩, lineIntersection_mem_line2 l1 l2 h⟩
  · intro p
    apply part1
    unfold lineCross
    norm_num

theorem claim_C7_witness :
    (lineCross (⟨0, 0⟩, ⟨1, 0⟩) (⟨0, 1⟩, ⟨1, 1⟩) = 0 ∧
      resolve_from_two_lines ⟨0, 5⟩ (⟨0, 0⟩, ⟨1, 0⟩) (⟨0, 1⟩, ⟨1, 1⟩) =
        .error .ParallelLines) ∧
    (lineCross (⟨0, 0⟩, ⟨2, 0⟩) (⟨0, 0⟩, ⟨0, 2⟩) ≠ 0 ∧
      ∃ spec, resolve_from_two_lines ⟨1, 1⟩ (⟨0, 0⟩, ⟨2, 0⟩) (⟨0, 0⟩, ⟨0, 2⟩) =
          .ok spec ∧
        (∃ t : ℝ, spec.center = (⟨0, 0⟩ : Vec2) + t • ((⟨2, 0⟩ : Vec2) - ⟨0, 0⟩)) ∧
        (∃ t : ℝ, spec.center = (⟨0, 0⟩ : Vec2) + t • ((⟨0, 2⟩ : Vec2) - ⟨0, 0⟩))) := by
  constructor
  · have hc : lineCross (⟨0, 0⟩, ⟨1, 0⟩) (⟨0, 1⟩, ⟨1, 1⟩) = 0 := by
      unfold lineCross
      norm_num
    exact ⟨hc, claim_C7_parallel_lines.1 ⟨0, 5⟩ _ _ hc⟩
  · have hc : lineCross (⟨0, 0⟩, ⟨2, 0⟩) (⟨0, 0⟩, ⟨0, 2⟩) ≠ 0 := by
      unfold lineCross
      norm_num
    exact ⟨hc, claim_C7_parallel_lines.2.1 ⟨1, 1⟩ _ _ hc⟩

theorem sqrt_four : Real.sqrt 4 = 2 := by
  rw [show (4:ℝ) = 2 ^ 2 from by norm_num, Real.sqrt_sq (by norm_num : (0:ℝ) ≤ 2)]

theorem angle_deg_two_x : Vec2.angle_deg ⟨2, 0⟩ = 0 := by
  unfold Vec2.angle_deg
  rw [show (Complex.I * (((⟨2, 0⟩ : Vec2).y : ℝ) : ℂ) + (((⟨2, 0⟩ : Vec2).x : ℝ) : ℂ))
      = ((2:ℝ) : ℂ) from by push_cast; ring]
  rw [Complex.arg_ofReal_of_nonneg (by norm_num : (0:ℝ) ≤ 2)]
  ring

theorem angle_deg_two_y : Vec2.angle_deg ⟨0, 2⟩ = 90 := by
  unfold Vec2.angle_deg
  rw [show (Complex.I * (((⟨0, 2⟩ : Vec2).y : ℝ) : ℂ) + (((⟨0, 2⟩ : Vec2).x : ℝ) : ℂ))
      = ((2:ℝ) : ℂ) * Complex.I from by push_cast; ring]
  rw [Complex.arg_real_mul _ (by norm_num : (0:ℝ) < 2), Complex.arg_I]
  field_simp
  ring

theorem resolve_2l_example :
    resolve_from_two_lines ⟨1, 1⟩ (⟨0, 0⟩, ⟨2, 0⟩) (⟨0, 0⟩, ⟨0, 2⟩) =
      .ok ⟨⟨0, 0⟩, 2, 0, 90, Real.sqrt 2 - 2, ⟨1, 1⟩, none⟩ := by
  have hcross : lineCross (⟨0, 0⟩, ⟨2, 0⟩) (⟨0, 0⟩, ⟨0, 2⟩) ≠ 0 := by
    unfold lineCross
    norm_num
  have d22 : Vec2.distance ⟨0, 0⟩ ⟨2, 0⟩ = 2 := by
    unfold Vec2.distance
    norm_num [sqrt_four]
  have d00 : Vec2.distance ⟨0, 0⟩ (⟨0, 0⟩ : Vec2) = 0 :=
    (Vec2.distance_eq_zero_iff _ _).mpr rfl
  have d11 : Vec2.distance ⟨0, 0⟩ ⟨1, 1⟩ = Real.sqrt 2 := by
    unfold Vec2.distance
    norm_num
  have hinter : lineIntersection (⟨0, 0⟩, ⟨2, 0⟩) (⟨0, 0⟩, ⟨0, 2⟩) = ⟨0, 0⟩ := by
    unfold lineIntersection intersectParam lineCross
    ext <;> norm_num
  have houter1 : outerPoint ⟨0, 0⟩ (⟨0, 0⟩, ⟨2, 0⟩) = ⟨2, 0⟩ := by
    unfold outerPoint
    rw [if_neg]
    rw [d22, d00]
    norm_num
  have houter2 : outerPoint ⟨0, 0⟩ (⟨0, 0⟩, ⟨0, 2⟩) = ⟨0, 2⟩ := by
    have d02 : Vec2.distance ⟨0, 0⟩ ⟨0, 2⟩ = 2 := by
      unfold Vec2.distance
      norm_num [sqrt_four]
    unfold outerPoint
    rw [if_neg]
    rw [d02, d00]
    norm_num
  have hsub2x : (⟨2, 0⟩ : Vec2) - ⟨0, 0⟩ = ⟨2, 0⟩ := by ext <;> norm_num
  have hsub2y : (⟨0, 2⟩ : Vec2) - ⟨0, 0⟩ = ⟨0, 2⟩ := by ext <;> norm_num
  unfold resolve_from_two_lines
  rw [if_neg hcross, hinter, houter1, houter2, hsub2x, hsub2y, d22, d11,
    angle_deg_two_x, angle_deg_two_y,
    resolve_cra_pos _ _ _ _ _ _ (by norm_num : (0:ℝ) < 2),
    lerp_angle_0_90, direction_at_45]
  have hss : (2 + (Real.sqrt 2 - 2)) * (Real.sqrt 2 / 2) = 1 := by
    rw [show ((2:ℝ) + (Real.sqrt 2 - 2)) = Real.sqrt 2 from by ring,
      show Real.sqrt 2 * (Real.sqrt 2 / 2) = Real.sqrt 2 * Real.sqrt 2 / 2 from by ring,
      Real.mul_self_sqrt (by norm_num : (0:ℝ) ≤ 2)]
    norm_num
  have hpoint : (⟨0, 0⟩ : Vec2) +
      (2 + (Real.sqrt 2 - 2)) • (⟨Real.sqrt 2 / 2, Real.sqrt 2 / 2⟩ : Vec2) = ⟨1, 1⟩ := by
    have hss2 : Real.sqrt 2 * (Real.sqrt 2 / 2) = 1 := by
      rw [show Real.sqrt 2 * (Real.sqrt 2 / 2) = Real.sqrt 2 * Real.sqrt 2 / 2 from by ring,
        Real.mul_self_sqrt (by norm_num : (0:ℝ) ≤ 2)]
      norm_num
    ext <;> simp [hss, hss2]
  rw [hpoint]

/-- C8: for every non-parallel pair of segments accepted by
`resolve_from_two_lines`, the returned `start_angle` is the polar angle
from the computed center toward the endpoint of `line1` farthest from
the center, and the returned `end_angle` is the polar angle from the
center toward the endpoint of `line2` farthest from the center. -/
theorem claim_C8_outward_angles (dlp : Vec2) (l1 l2 : Vec2 × Vec2)
    (h : lineCross l1 l2 ≠ 0) :
    ∀ spec, resolve_from_two_lines dlp l1 l2 = .ok spec →
      (∃ e, (e = l1.1 ∨ e = l1.2) ∧
        Vec2.distance spec.center e =
          max (Vec2.distance spec.center l1.1) (Vec2.distance spec.center l1.2) ∧
        spec.start_angle = Vec2.angle_deg (e - spec.center)) ∧
      (∃ e, (e = l2.1 ∨ e = l2.2) ∧
        Vec2.distance spec.center e =
          max (Vec2.distance spec.center l2.1) (Vec2.distance spec.center l2.2) ∧
        spec.end_angle = Vec2.angle_deg (e - spec.center)) := by
  intro spec hspec
  unfold resolve_from_two_lines at hspec
  rw [if_neg h, resolve_cra_pos _ _ _ _ _ _
    (outerPoint_dist_pos _ _ (lineCross_ne_zero_distinct l1 l2 h).1)] at hspec
  simp only [Except.ok.injEq] at hspec
  subst hspec
  exact ⟨⟨outerPoint (lineIntersection l1 l2) l1,
      (outerPoint_cases (lineIntersection l1 l2) l1).1,
      (outerPoint_cases (lineIntersection l1 l2) l1).2, rfl⟩,
    ⟨outerPoint (lineIntersection l1 l2) l2,
      (outerPoint_cases (lineIntersection l1 l2) l2).1,
      (outerPoint_cases (lineIntersection l1 l2) l2).2, rfl⟩⟩

theorem claim_C8_witness :
    lineCross (⟨0, 0⟩, ⟨2, 0⟩) (⟨0, 0⟩, ⟨0, 2⟩) ≠ 0 ∧
    ((∃ e, (e = (⟨0, 0⟩ : Vec2) ∨ e = ⟨2, 0⟩) ∧
        Vec2.distance ⟨0, 0⟩ e =
          max (Vec2.distance ⟨0, 0⟩ ⟨0, 0⟩) (Vec2.distance ⟨0, 0⟩ ⟨2, 0⟩) ∧
        (0:ℝ) = Vec2.angle_deg (e - ⟨0, 0⟩)) ∧
     (∃ e, (e = (⟨0, 0⟩ : Vec2) ∨ e = ⟨0, 2⟩) ∧
        Vec2.distance ⟨0, 0⟩ e =
          max (Vec2.distance ⟨0, 0⟩ ⟨0, 0⟩) (Vec2.distance ⟨0, 0⟩ ⟨0, 2⟩) ∧
        (90:ℝ) = Vec2.angle_deg (e - ⟨0, 0⟩))) := by
  have hc : lineCross (⟨0, 0⟩, ⟨2, 0⟩) (⟨0, 0⟩, ⟨0, 2⟩) ≠ 0 := by
    unfold lineCross
    norm_num
  exact ⟨hc, claim_C8_outward_angles ⟨1, 1⟩ (⟨0, 0⟩, ⟨2, 0⟩) (⟨0, 0⟩, ⟨0, 2⟩) hc
    ⟨⟨0, 0⟩, 2, 0, 90, Real.sqrt 2 - 2, ⟨1, 1⟩, none⟩ resolve_2l_example⟩

/-- C1 counterexample: with radius 1 and distance -2 (so `radius +
distance < 0`), the spec returned for start angle 300 and end angle 240
has `dimension_line_point = (0, -1)`, whose angle from the center
normalizes to exactly 270° — the numeric average the claim excludes —
and does not lie on the counter-clockwise arc from 300° to 240°. -/
theorem claim_C1_counterexample :
    resolve_from_center_radius_angles ⟨0, 0⟩ 1 300 240 (-2) none =
      .ok ⟨⟨0, 0⟩, 1, 300, 240, -2, ⟨0, -1⟩, none⟩ ∧
    normDeg (Vec2.angle_deg ((⟨0, -1⟩ : Vec2) - ⟨0, 0⟩)) = 270 ∧
    ¬ onCcwArcDeg 300 240 (Vec2.angle_deg ((⟨0, -1⟩ : Vec2) - ⟨0, 0⟩)) := by
  have hsub : (⟨0, -1⟩ : Vec2) - ⟨0, 0⟩ = ⟨0, -1⟩ := by ext <;> norm_num
  have hang : Vec2.angle_deg ((⟨0, -1⟩ : Vec2) - ⟨0, 0⟩) = -90 := by
    rw [hsub, angle_deg_neg_unit_y]
  refine ⟨?_, ?_, ?_⟩
  · rw [resolve_cra_pos _ _ _ _ _ _ (by norm_num : (0:ℝ) < 1), lerp_angle_300_240,
      direction_at_450]
    have hpt : (⟨0, 0⟩ : Vec2) + ((1:ℝ) + -2) • (⟨0, 1⟩ : Vec2) = ⟨0, -1⟩ := by
      ext <;> norm_num
    rw [hpt]
  · rw [hang]
    exact normDeg_eq (-90) 270 (-1) (by norm_num) (by norm_num) (by norm_num)
  · rw [hang]
    unfold onCcwArcDeg
    rw [show (-90:ℝ) - 300 = -390 from by norm_num,
      normDeg_eq (-390) 330 (-2) (by norm_num) (by norm_num) (by norm_num),
      sweepDeg_def,
      normDeg_eq (240 - 300) 300 (-1) (by norm_num) (by norm_num) (by norm_num)]
    norm_num

/-- C1 (amended: the "in particular" consequence about the returned
point's angle from the center additionally requires `radius + distance >
0`; with `radius + distance < 0` the point lies on the opposite ray, at
270° for start 300 / end 240).  `resolve_from_center_radius_angles`
returns `dimension_line_point = center + direction_at (lerp_angle
start end) * (radius + distance)` for every positive radius and every
distance; `lerp_angle` is the midpoint of the counter-clockwise swept
arc (it bisects the sweep and lies on the arc, even when the sweep
exceeds 180°); and for start 300 / end 240 with `radius + distance > 0`
the returned point's angle from the center lies on the counter-clockwise
arc from 300° through 0° to 240° and is not the numeric average 270°. -/
theorem claim_C1_ccw_midpoint_direction :
    (∀ s e : ℝ, sweepDeg s (lerp_angle s e) = sweepDeg s e / 2 ∧
      sweepDeg (lerp_angle s e) e = sweepDeg s e / 2 ∧
      onCcwArcDeg s e (lerp_angle s e)) ∧
    (∀ (c : Vec2) (r s e d : ℝ) (tr : Option ℝ), 0 < r →
      resolve_from_center_radius_angles c r s e d tr =
        .ok ⟨c, r, s, e, d, c + (r + d) • direction_at (lerp_angle s e), tr⟩) ∧
    (∀ (c : Vec2) (r d : ℝ) (tr : Option ℝ), 0 < r → 0 < r + d →
      ∀ spec, resolve_from_center_radius_angles c r 300 240 d tr = .ok spec →
        onCcwArcDeg 300 240 (Vec2.angle_deg (spec.dimension_line_point - c)) ∧
        normDeg (Vec2.angle_deg (spec.dimension_line_point - c)) ≠ 270) := by
  refine ⟨?_, ?_, ?_⟩
  · intro s e
    have h1 := sweepDeg_lerp_angle_left s e
    have hb := sweepDeg_mem_Ico s e
    rw [Set.mem_Ico] at hb
    refine ⟨h1, sweepDeg_lerp_angle_right s e, ?_⟩
    unfold onCcwArcDeg
    rw [← sweepDeg_def, h1]
    linarith
  · exact fun c r s e d tr hr => resolve_cra_pos c r s e d tr hr
  · intro c r d tr hr hrd spec hspec
    rw [resolve_cra_pos c r 300 240 d tr hr] at hspec
    simp only [Except.ok.injEq] at hspec
    subst hspec
    have hsub : (c + (r + d) • direction_at (lerp_angle 300 240)) - c
        = (r + d) • direction_at (lerp_angle 300 240) := by
      ext <;> simp
    have hang : Vec2.angle_deg
        ((c + (r + d) • direction_at (lerp_angle 300 240)) - c) = 90 := by
      rw [hsub, lerp_angle_300_240, direction_at_450, Vec2.angle_deg_smul _ _ hrd,
        angle_deg_unit_y]
    constructor
    · show onCcwArcDeg 300 240 (Vec2.angle_deg
        ((c + (r + d) • direction_at (lerp_angle 300 240)) - c))
      unfold onCcwArcDeg
      rw [hang, show (90:ℝ) - 300 = -210 from by norm_num,
        normDeg_eq (-210) 150 (-1) (by norm_num) (by norm_num) (by norm_num),
        sweepDeg_def,
        normDeg_eq (240 - 300) 300 (-1) (by norm_num) (by norm_num) (by norm_num)]
      norm_num
    · show normDeg (Vec2.angle_deg
        ((c + (r + d) • direction_at (lerp_angle 300 240)) - c)) ≠ 270
      rw [hang, normDeg_eq_self 90 (by norm_num) (by norm_num)]
      norm_num

theorem claim_C1_witness :
    ((0:ℝ) < 5 ∧
      resolve_from_center_radius_angles ⟨0, 0⟩ 5 300 240 2 none =
        .ok ⟨⟨0, 0⟩, 5, 300, 240, 2, ⟨0, 7⟩, none⟩) ∧
    ((0:ℝ) < 5 + 2 ∧
      (onCcwArcDeg 300 240 (Vec2.angle_deg ((⟨0, 7⟩ : Vec2) - ⟨0, 0⟩)) ∧
        normDeg (Vec2.angle_deg ((⟨0, 7⟩ : Vec2) - ⟨0, 0⟩)) ≠ 270)) := by
  have hok : resolve_from_center_radius_angles ⟨0, 0⟩ 5 300 240 2 none =
      .ok ⟨⟨0, 0⟩, 5, 300, 240, 2, ⟨0, 7⟩, none⟩ := by
    rw [claim_C1_ccw_midpoint_direction.2.1 ⟨0, 0⟩ 5 300 240 2 none (by norm_num),
      lerp_angle_300_240, direction_at_450]
    have hpt : (⟨0, 0⟩ : Vec2) + ((5:ℝ) + 2) • (⟨0, 1⟩ : Vec2) = ⟨0, 7⟩ := by
      ext <;> norm_num
    rw [hpt]
  have h2 := claim_C1_ccw_midpoint_direction.2.2 ⟨0, 0⟩ 5 2 none (by norm_num) (by norm_num)
    _ hok
  exact ⟨⟨by norm_num, hok⟩, by norm_num, h2⟩

/-- C4 counterexample: the valid three-point input with
`dimension_line_point = (2,0)`, `center = (0,0)`, boundary points
`(1,0)` and `(0,1)` derives `(center, radius, start, end, distance) =
((0,0), 1, 0, 90, 1)`, but feeding those values back into
`resolve_from_center_radius_angles` produces the point `(√2, √2)` on the
mid-arc ray at 45°, which is farther than 1e-9 from the original
`(2, 0)`: the reconstruction preserves only the distance from the
center, not the direction. -/
theorem claim_C4_counterexample :
    resolve_from_three_points ⟨2, 0⟩ ⟨0, 0⟩ ⟨1, 0⟩ ⟨0, 1⟩ none =
      .ok ⟨⟨0, 0⟩, 1, 0, 90, 1, ⟨Real.sqrt 2, Real.sqrt 2⟩, none⟩ ∧
    resolve_from_center_radius_angles ⟨0, 0⟩ 1 0 90 1 none =
      .ok ⟨⟨0, 0⟩, 1, 0, 90, 1, ⟨Real.sqrt 2, Real.sqrt 2⟩, none⟩ ∧
    ¬ Vec2.distance (⟨Real.sqrt 2, Real.sqrt 2⟩ : Vec2) ⟨2, 0⟩ ≤ 1e-9 := by
  have hd1 : Vec2.distance ⟨0, 0⟩ ⟨1, 0⟩ = 1 := by
    unfold Vec2.distance
    norm_num [Real.sqrt_one]
  have hd2 : Vec2.distance ⟨0, 0⟩ ⟨2, 0⟩ = 2 := by
    unfold Vec2.distance
    norm_num [sqrt_four]
  have hcra : resolve_from_center_radius_angles ⟨0, 0⟩ 1 0 90 1 none =
      .ok ⟨⟨0, 0⟩, 1, 0, 90, 1, ⟨Real.sqrt 2, Real.sqrt 2⟩, none⟩ := by
    rw [resolve_cra_pos _ _ _ _ _ _ (by norm_num : (0:ℝ) < 1), lerp_angle_0_90,
      direction_at_45]
    have hpt : (⟨0, 0⟩ : Vec2) +
        ((1:ℝ) + 1) • (⟨Real.sqrt 2 / 2, Real.sqrt 2 / 2⟩ : Vec2) =
        ⟨Real.sqrt 2, Real.sqrt 2⟩ := by
      ext <;> simp <;> ring
    rw [hpt]
  refine ⟨?_, hcra, ?_⟩
  · have hc1 : ¬((⟨0, 0⟩ : Vec2) = ⟨1, 0⟩ ∨ (⟨0, 0⟩ : Vec2) = ⟨0, 1⟩) := by
      rw [not_or]
      constructor <;> (intro h; rw [Vec2.ext_iff] at h; norm_num at h)
    have hc2 : ¬((⟨2, 0⟩ : Vec2) = ⟨0, 0⟩) := by
      intro h
      rw [Vec2.ext_iff] at h
      norm_num at h
    have hc3 : ¬(Vec2.distance ⟨0, 0⟩ ⟨1, 0⟩ = 0) := by
      rw [hd1]
      norm_num
    have hsub1 : (⟨1, 0⟩ : Vec2) - ⟨0, 0⟩ = ⟨1, 0⟩ := by ext <;> norm_num
    have hsub2 : (⟨0, 1⟩ : Vec2) - ⟨0, 0⟩ = ⟨0, 1⟩ := by ext <;> norm_num
    unfold resolve_from_three_points
    rw [if_neg hc1, if_neg hc2, if_neg hc3, hsub1, hsub2, angle_deg_unit_x,
      angle_deg_unit_y,
      show Vec2.distance ⟨0, 0⟩ ⟨2, 0⟩ - Vec2.distance ⟨0, 0⟩ ⟨1, 0⟩ = 1 from by
        rw [hd1, hd2]; norm_num,
      hd1]
    exact hcra
  · rw [not_le]
    unfold Vec2.distance
    have h225 : Real.sqrt 2 ≤ 1.5 := by
      have h := Real.sqrt_le_sqrt (by norm_num : (2:ℝ) ≤ 2.25)
      rwa [show (2.25:ℝ) = 1.5 ^ 2 from by norm_num,
        Real.sqrt_sq (by norm_num : (0:ℝ) ≤ 1.5)] at h
    have hsq : Real.sqrt 2 ^ 2 = 2 := Real.sq_sqrt (by norm_num)
    rw [Real.lt_sqrt (by norm_num : (0:ℝ) ≤ 1e-9)]
    dsimp only
    nlinarith [h225, hsq, Real.sqrt_nonneg 2]

/-- C4 (amended: the round-trip reproduces the original
`dimension_line_point` exactly when that point lies on the open ray from
the center in the mid-arc direction — and, in general, only its distance
from the center is preserved, not its direction).  For any valid
three-point input whose `dimension_line_point` is
`center + k * direction_at (mid-arc angle)` with `k > 0`, feeding the
derived `(center, radius, start, end, distance)` back into
`resolve_from_center_radius_angles` reproduces the original
`dimension_line_point` (so in particular within 1e-9). -/
theorem claim_C4_roundtrip (dlp c p1 p2 : Vec2) (tr : Option ℝ) (k : ℝ)
    (h1 : c ≠ p1) (h2 : c ≠ p2) (hk : 0 < k)
    (hdlp : dlp = c + k • direction_at (lerp_angle (Vec2.angle_deg (p1 - c))
      (Vec2.angle_deg (p2 - c)))) :
    ∃ spec, resolve_from_three_points dlp c p1 p2 tr = .ok spec ∧
      spec.center = c ∧
      ∃ spec2, resolve_from_center_radius_angles spec.center spec.radius
          spec.start_angle spec.end_angle spec.distance tr = .ok spec2 ∧
        spec2.dimension_line_point = dlp ∧
        Vec2.distance spec2.dimension_line_point dlp ≤ 1e-9 := by
  have hrne : Vec2.distance c p1 ≠ 0 := fun h => h1 ((Vec2.distance_eq_zero_iff c p1).mp h)
  have hrpos : 0 < Vec2.distance c p1 :=
    lt_of_le_of_ne (Vec2.distance_nonneg c p1) (Ne.symm hrne)
  have hdc : Vec2.distance c dlp = k := by
    rw [hdlp, Vec2.distance_add_smul_direction, abs_of_pos hk]
  have hdlpc : dlp ≠ c := by
    intro h
    rw [h] at hdc
    exact absurd (((Vec2.distance_eq_zero_iff c c).mpr rfl).symm.trans hdc) (ne_of_lt hk)
  have hpointeq : c + (Vec2.distance c p1 +
      (Vec2.distance c dlp - Vec2.distance c p1)) •
      direction_at (lerp_angle (Vec2.angle_deg (p1 - c)) (Vec2.angle_deg (p2 - c)))
      = dlp := by
    rw [show Vec2.distance c p1 + (Vec2.distance c dlp - Vec2.distance c p1)
        = Vec2.distance c dlp from by ring, hdc, ← hdlp]
  have hfinal : Vec2.distance (c + (Vec2.distance c p1 +
      (Vec2.distance c dlp - Vec2.distance c p1)) •
      direction_at (lerp_angle (Vec2.angle_deg (p1 - c)) (Vec2.angle_deg (p2 - c))))
      dlp ≤ 1e-9 := by
    rw [hpointeq, (Vec2.distance_eq_zero_iff dlp dlp).mpr rfl]
    norm_num
  unfold resolve_from_three_points
  rw [if_neg (not_or.mpr ⟨h1, h2⟩), if_neg hdlpc, if_neg hrne,
    resolve_cra_pos _ _ _ _ _ _ hrpos]
  exact ⟨_, rfl, rfl, _,
    resolve_cra_pos c (Vec2.distance c p1) (Vec2.angle_deg (p1 - c))
      (Vec2.angle_deg (p2 - c)) (Vec2.distance c dlp - Vec2.distance c p1) tr hrpos,
    hpointeq, hfinal⟩

theorem claim_C4_witness :
    (⟨0, 0⟩ : Vec2) ≠ ⟨1, 0⟩ ∧ (⟨0, 0⟩ : Vec2) ≠ ⟨0, 1⟩ ∧ (0:ℝ) < 2 ∧
    ∃ spec, resolve_from_three_points
        (⟨0, 0⟩ + (2:ℝ) • direction_at (lerp_angle
          (Vec2.angle_deg ((⟨1, 0⟩ : Vec2) - ⟨0, 0⟩))
          (Vec2.angle_deg ((⟨0, 1⟩ : Vec2) - ⟨0, 0⟩))))
        ⟨0, 0⟩ ⟨1, 0⟩ ⟨0, 1⟩ none = .ok spec ∧
      spec.center = ⟨0, 0⟩ ∧
      ∃ spec2, resolve_from_center_radius_angles spec.center spec.radius
          spec.start_angle spec.end_angle spec.distance none = .ok spec2 ∧
        spec2.dimension_line_point = ⟨0, 0⟩ + (2:ℝ) • direction_at (lerp_angle
          (Vec2.angle_deg ((⟨1, 0⟩ : Vec2) - ⟨0, 0⟩))
          (Vec2.angle_deg ((⟨0, 1⟩ : Vec2) - ⟨0, 0⟩))) ∧
        Vec2.distance spec2.dimension_line_point
          (⟨0, 0⟩ + (2:ℝ) • direction_at (lerp_angle
            (Vec2.angle_deg ((⟨1, 0⟩ : Vec2) - ⟨0, 0⟩))
            (Vec2.angle_deg ((⟨0, 1⟩ : Vec2) - ⟨0, 0⟩)))) ≤ 1e-9 := by
  have hne1 : (⟨0, 0⟩ : Vec2) ≠ ⟨1, 0⟩ := by
    intro h
    rw [Vec2.ext_iff] at h
    norm_num at h
  have hne2 : (⟨0, 0⟩ : Vec2) ≠ ⟨0, 1⟩ := by
    intro h
    rw [Vec2.ext_iff] at h
    norm_num at h
  have h := claim_C4_roundtrip _ ⟨0, 0⟩ ⟨1, 0⟩ ⟨0, 1⟩ none 2 hne1 hne2 (by norm_num) rfl
  exact ⟨hne1, hne2, by norm_num, h⟩
